import Mathlib

/-!
Shallow embedding of `src/dns/dump_dns.c` (DNS message dumper).

The file models the decoding/formatting engine: `dump_dns`, `dump_dns_sect`,
`dump_dns_rr` (including the EDNS0 OPT option walker), `hostname_from_question`,
`get_query_domain` and `p_opcode`.  Trusted external collaborators
(`ns_initparse`, `ns_parserr`, `ns_name_uncompress`, `inet_ntop` for IPv6 and
the class/type/rcode name tables from libresolv) are abstracted as parameters:
an `Env` record of functions and a `ParsedMsg` record standing for a
successfully parsed `ns_msg`.  Output written to the `FILE *trace` sink is
modelled as the list of chunks written, in order (one list element per
`fprintf`/`fputs`/`putc` group, matching the C calls).

Bytes of the raw message are a `List Nat`; out-of-range reads yield 0
(`List.getD`), which is only ever relied upon under the same bounds the C code
checks.
-/

namespace DumpDns

/-- The four DNS sections (`ns_sect`): question, answer, authority, additional. -/
inductive Sect : Type where
  | qd | an | ns | ar
deriving DecidableEq, Repr

/-- One resource record as produced by the trusted `ns_parserr` accessor:
owner name, class, type, ttl, and the rdata slice given by its offset into the
message buffer together with its length (`ns_rr_rdata` / `ns_rr_rdlen`). -/
structure RR : Type where
  name : String
  cls : Nat
  rtype : Nat
  ttl : Nat
  rdoff : Nat
  rdlen : Nat
deriving DecidableEq, Repr

/-- A successfully parsed message (`ns_msg`): id, opcode and rcode
(`ns_msg_getflag` with `ns_f_opcode`/`ns_f_rcode`), the eight flag bits, the
per-section record counts (`ns_msg_count`) and the per-section indexed record
accessor (`ns_parserr`; `none` models a nonzero return / failure). -/
structure ParsedMsg : Type where
  id : Nat
  opcode : Nat
  rcode : Nat
  qr : Bool
  aa : Bool
  tc : Bool
  rd : Bool
  ra : Bool
  z : Bool
  ad : Bool
  cd : Bool
  counts : Sect → Nat
  recs : Sect → Nat → Option RR

/-- The trusted external collaborators of `dump_dns.c`:
`uncompress msg off` models `ns_name_uncompress(base, end, base+off, buf, n)`,
returning the expanded name and the number of wire bytes the compressed form
occupied (or `none` for a negative return); `ntop6` models
`inet_ntop(AF_INET6, ...)`; `pClass`/`pType`/`pRcode` are the libresolv name
tables; `errString` models `strerror(errno)`. -/
structure Env : Type where
  uncompress : List Nat → Nat → Option (String × Nat)
  ntop6 : List Nat → String
  pClass : Nat → String
  pType : Nat → String
  pRcode : Nat → String
  errString : String

/-- `MY_GET16`: big-endian 16-bit read at offset `i` of the message. -/
def get16 (msg : List Nat) (i : Nat) : Nat :=
  msg.getD i 0 * 256 + msg.getD (i + 1) 0

/-- `MY_GET32`: big-endian 32-bit read at offset `i` of the message. -/
def get32 (msg : List Nat) (i : Nat) : Nat :=
  ((msg.getD i 0 * 256 + msg.getD (i + 1) 0) * 256 + msg.getD (i + 2) 0) * 256
    + msg.getD (i + 3) 0

/-- The `n` bytes of the message starting at offset `off` (0 beyond the end). -/
def sliceBytes (msg : List Nat) (off n : Nat) : List Nat :=
  (List.range n).map (fun i => msg.getD (off + i) 0)

/-- Zero-pad a byte list on the right to 16 bytes (the `u_char addr[16]`
buffer after `memset(addr, 0, ...)` and `memcpy`). -/
def padTo16 (bs : List Nat) : List Nat :=
  bs ++ List.replicate (16 - bs.length) 0

/-- `inet_ntop(AF_INET, p, ...)`: dotted-decimal text of the first 4 bytes. -/
def ntop4 (bs : List Nat) : String :=
  let a := bs.getD 0 0
  let b := bs.getD 1 0
  let c := bs.getD 2 0
  let d := bs.getD 3 0
  s!"{a}.{b}.{c}.{d}"

/-- The `edns0[code=...,codelen=...] ` chunk printed for the option whose
code/length words sit at offset `rd` of the message. -/
def codeTok (msg : List Nat) (rd : Nat) : String :=
  let c := get16 msg rd
  let l := get16 msg (rd + 2)
  s!"edns0[code={c},codelen={l}] "

/-- The `[N]` fallback text written into `buf` at the `error:` label
(`sprintf(buf, "[%u]", ns_rr_rdlen(*rr))`). -/
def fallbackTok (n : Nat) : String := s!"[{n}]"

/-- The `unknown AFI %d\n` chunk for an unrecognized client-subnet family. -/
def warnTok (afi : Nat) : String := s!"unknown AFI {afi}\n"

/-- The `edns0_client_subnet=.../... (scope ...)` chunk. -/
def csTok (body : String) (sm sc : Nat) : String :=
  s!"edns0_client_subnet={body}/{sm} (scope {sc})"

/-- The 16-byte zero-padded client-subnet address buffer for the option whose
header is at offset `rd` and whose declared length is `len`: the C code copies
`min (len - 4) 16` bytes starting right after the family and mask words. -/
def csAddr (msg : List Nat) (rd len : Nat) : List Nat :=
  padTo16 (sliceBytes msg (rd + 8) (min (len - 4) 16))

/-- The EDNS0 option walker: the `while (optlen >= 4)` loop of the
`ns_t_opt` case of `dump_dns_rr`.  `rd` is the cursor offset into the message,
`optlen` the remaining OPT rdata bytes.  Returns the chunks written to the
trace, whether `goto error` was taken, and the final cursor offset. -/
def optWalk (env : Env) (msg : List Nat) (rd optlen : Nat) :
    List String × Bool × Nat :=
  if _h4 : optlen < 4 then ([], false, rd)
  else
    let code := get16 msg rd
    let len := get16 msg (rd + 2)
    let rd1 := rd + 4
    let rem := optlen - 4
    let tok := codeTok msg rd
    if len > rem then
      ([tok], true, rd1)
    else if code = 8 then
      if len < 4 then
        ([tok], true, rd1)
      else
        let afi := get16 msg rd1
        let masks := get16 msg (rd1 + 2)
        let srcmask := (masks &&& 0xff00) >>> 8
        let scomask := masks &&& 0xff
        let alen := len - 4
        let addr := csAddr msg rd len
        let warnToks : List String :=
          if afi = 1 ∨ afi = 2 then [] else [warnTok afi]
        let bufStr :=
          if afi = 1 then ntop4 addr
          else if afi = 2 then env.ntop6 addr
          else "<unknown>"
        let r := optWalk env msg (rd1 + 4 + alen) (rem - len)
        (tok :: (warnToks ++ csTok bufStr srcmask scomask :: r.1), r.2.1, r.2.2)
    else
      let r := optWalk env msg (rd1 + len) (rem - len)
      (tok :: r.1, r.2.1, r.2.2)
termination_by optlen
decreasing_by
  all_goals (simp_wf; omega)

/-- The `name,class_name,type_name` chunk every record starts with
(`fprintf(trace, "%s,%s,%s", ns_rr_name(*rr), p_class(class), p_type(type))`). -/
def rrHeadTok (env : Env) (rr : RR) : String :=
  let nm := rr.name
  let cn := env.pClass rr.cls
  let tn := env.pType rr.rtype
  s!"{nm},{cn},{tn}"

/-- The `,ttl` chunk (`fprintf(trace, ",%lu", ns_rr_ttl(*rr))`). -/
def rrTtlTok (rr : RR) : String :=
  let t := rr.ttl
  s!",{t}"

/-- The five 32-bit SOA fields read big-endian starting at offset `off`
(`sprintf(buf, "%u,%u,%u,%u,%u", soa[0], ..., soa[4])`). -/
def soaFields (msg : List Nat) (off : Nat) : String :=
  let s0 := get32 msg off
  let s1 := get32 msg (off + 4)
  let s2 := get32 msg (off + 8)
  let s3 := get32 msg (off + 12)
  let s4 := get32 msg (off + 16)
  s!"{s0},{s1},{s2},{s3},{s4}"

/-- The `,edns0[len=...,UDP=...,ver=...,rcode=...,DO=...,z=...] \` header chunk
of an OPT record: class is reinterpreted as the UDP payload size and the ttl
word carries extended rcode (bits 31-24), version (bits 23-16), the DO bit
(bit 15) and z (bits 14-0). -/
def optHdrTok (rr : RR) : String :=
  let len := rr.rdlen
  let csize := rr.cls
  let ver := (rr.ttl &&& 0x00ff0000) >>> 16
  let xrcode := (rr.ttl &&& 0xff000000) >>> 24
  let dob := if rr.ttl &&& 0x8000 ≠ 0 then "1" else "0"
  let zz := rr.ttl &&& 0x7fff
  s!",edns0[len={len},UDP={csize},ver={ver},rcode={xrcode},DO={dob},z={zz}] \\\n\t"

/-- The `switch (type)` body of `dump_dns_rr` for non-question records:
returns the chunks written directly to the trace inside the switch, paired
with the final content of `buf` (printed as `,buf` afterwards when nonempty;
the `error:` label stores `[rdlen]` in `buf`). -/
def rrBody (env : Env) (msg : List Nat) (rr : RR) : List String × String :=
  let msgLen := msg.length
  let rd := rr.rdoff
  if rr.rtype = 6 then
    match env.uncompress msg rd with
    | none => ([], fallbackTok rr.rdlen)
    | some p1 =>
      match env.uncompress msg (rd + p1.2) with
      | none => ([",", p1.1], fallbackTok rr.rdlen)
      | some p2 =>
        let rd2 := rd + p1.2 + p2.2
        if msgLen - rd2 < 20 then
          ([",", p1.1, ",", p2.1], fallbackTok rr.rdlen)
        else
          ([",", p1.1, ",", p2.1], soaFields msg rd2)
  else if rr.rtype = 1 then
    if msgLen - rd < 4 then ([], fallbackTok rr.rdlen)
    else ([], ntop4 (sliceBytes msg rd 4))
  else if rr.rtype = 28 then
    if msgLen - rd < 16 then ([], fallbackTok rr.rdlen)
    else ([], env.ntop6 (sliceBytes msg rd 16))
  else if rr.rtype = 15 then
    if msgLen - rd < 2 then ([], fallbackTok rr.rdlen)
    else
      let mx := get16 msg rd
      let mxTok := s!",{mx}"
      match env.uncompress msg (rd + 2) with
      | none => ([mxTok], fallbackTok rr.rdlen)
      | some p => ([mxTok], p.1)
  else if rr.rtype = 2 ∨ rr.rtype = 12 ∨ rr.rtype = 5 then
    match env.uncompress msg rd with
    | none => ([], fallbackTok rr.rdlen)
    | some p => ([], p.1)
  else if rr.rtype = 41 then
    let r := optWalk env msg rd rr.rdlen
    (optHdrTok rr :: r.1, if r.2.1 then fallbackTok rr.rdlen else "")
  else ([], fallbackTok rr.rdlen)

/-- `dump_dns_rr`: format one resource record.  Question-section records get
only the `name,class,type` head; other sections append the ttl, the
type-dispatched body chunks and, when `buf` ended nonempty, `,` followed by
`buf`. -/
def dump_dns_rr (env : Env) (msg : List Nat) (rr : RR) (sect : Sect) :
    List String :=
  if sect = Sect.qd then [rrHeadTok env rr]
  else
    let r := rrBody env msg rr
    rrHeadTok env rr :: rrTtlTok rr ::
      (r.1 ++ (if r.2 = "" then [] else [",", r.2]))

/-- The record loop of `dump_dns_sect`: `k` records remain, `rrnum` is the
next index, `sep` the separator printed (after a space) before the next
record (`""` for the first, `endline` afterwards).  A failing `ns_parserr`
prints `strerror(errno)` and stops the section. -/
def sectLoop (env : Env) (msg : List Nat) (pm : ParsedMsg) (sect : Sect)
    (endline : String) : Nat → Nat → String → List String
  | 0, _, _ => []
  | k + 1, rrnum, sep =>
    match pm.recs sect rrnum with
    | none => [env.errString]
    | some rr =>
      (" " ++ sep) ::
        (dump_dns_rr env msg rr sect ++
          sectLoop env msg pm sect endline k (rrnum + 1) endline)

/-- `dump_dns_sect`: an empty section prints a lone ` 0`; otherwise the
count (preceded by a space and the caller's separator) and then the records. -/
def dump_dns_sect (env : Env) (msg : List Nat) (pm : ParsedMsg) (sect : Sect)
    (endline : String) : List String :=
  let rrmax := pm.counts sect
  if rrmax = 0 then [" 0"]
  else
    let cnt := s!" {endline}{rrmax}"
    cnt :: sectLoop env msg pm sect endline rrmax 0 ""

/-- The ` <endline><count>` chunk that opens a nonempty section. -/
def countTok (endline : String) (n : Nat) : String := s!" {endline}{n}"

/-- The flag chunks of the header line: fixed order qr, aa, tc, rd, ra, z,
ad, cd; the first set flag is joined with `,`, later ones with `|`. -/
def flagGo : List (Bool × String) → String → List String
  | [], _ => []
  | (b, t) :: rest, sep =>
    if b then (sep ++ t) :: flagGo rest "|" else flagGo rest sep

/-- All flag chunks printed by the `FLAG(...)` macro block of `dump_dns`. -/
def flagTokens (pm : ParsedMsg) : List String :=
  flagGo [(pm.qr, "qr"), (pm.aa, "aa"), (pm.tc, "tc"), (pm.rd, "rd"),
          (pm.ra, "ra"), (pm.z, "z"), (pm.ad, "ad"), (pm.cd, "cd")] ","

/-- `p_opcode`: opcode names, with the `OPCODE<n>` fallback for unknown
values. -/
def p_opcode (n : Nat) : String :=
  if n = 0 then "QUERY"
  else if n = 1 then "IQUERY"
  else if n = 2 then "CQUERYM"
  else if n = 3 then "CQUERYU"
  else if n = 4 then "NOTIFY"
  else if n = 5 then "UPDATE"
  else if n = 14 then "ZONEINIT"
  else if n = 15 then "ZONEREF"
  else s!"OPCODE{n}"

/-- The `"%s,%s,%u"` opcode/rcode/id summary chunk of the header line. -/
def dnsSummaryTok (env : Env) (pm : ParsedMsg) : String :=
  let opc := p_opcode pm.opcode
  let rc := env.pRcode pm.rcode
  let i := pm.id
  s!"{opc},{rc},{i}"

/-- The ` <endline>dns ` chunk printed before the parse is attempted. -/
def dnsFirstTok (endline : String) : String := s!" {endline}dns "

/-- `dump_dns`: the whole-message dump.  `p` is the `ns_initparse` outcome
(`none` models a negative return, in which case only `strerror(errno)`
follows the opening chunk); on success the header summary, the flag chunks
and the four sections in fixed order qd, an, ns, ar. -/
def dump_dns (env : Env) (msg : List Nat) (p : Option ParsedMsg)
    (endline : String) : List String :=
  dnsFirstTok endline ::
    match p with
    | none => [env.errString]
    | some pm =>
      dnsSummaryTok env pm ::
        (flagTokens pm ++
          dump_dns_sect env msg pm Sect.qd endline ++
          dump_dns_sect env msg pm Sect.an endline ++
          dump_dns_sect env msg pm Sect.ns endline ++
          dump_dns_sect env msg pm Sect.ar endline)

/-- `hostname_from_question`: the owner name of the first question record,
`none` (NULL) when the question section is empty or `ns_parserr` fails.
The C loop body unconditionally returns during its first iteration, so only
index 0 is ever consulted. -/
def hostname_from_question (pm : ParsedMsg) : Option String :=
  if pm.counts Sect.qd = 0 then none
  else
    match pm.recs Sect.qd 0 with
    | none => none
    | some rr => some rr.name

/-- `get_query_domain`: `ns_initparse` failure yields NULL, otherwise the
result of `hostname_from_question`. -/
def get_query_domain (p : Option ParsedMsg) : Option String :=
  match p with
  | none => none
  | some pm => hostname_from_question pm

/-- A concrete environment for witnesses: decompression always fails. -/
def env0 : Env :=
  { uncompress := fun _ _ => none
    ntop6 := fun _ => "v6addr"
    pClass := fun n => s!"C{n}"
    pType := fun n => s!"T{n}"
    pRcode := fun n => s!"R{n}"
    errString := "parse error" }

/-- A concrete environment whose decompression always succeeds, yielding the
name `q` from one wire byte. -/
def env1 : Env :=
  { env0 with uncompress := fun _ _ => some ("q", 1) }

/-- An A record whose rdata slice is empty (`rdlen = 0`) at offset 0. -/
def rrA : RR := ⟨"a", 1, 1, 0, 0, 0⟩

/-- An A record with a full 4-byte rdata slice at offset 0. -/
def rrA4 : RR := ⟨"a", 1, 1, 0, 0, 4⟩

/-- An A record with only 2 rdata bytes at offset 0. -/
def rrA2 : RR := ⟨"a", 1, 1, 0, 0, 2⟩

/-- A message buffer holding the bytes 192.0.2.1. -/
def msgA : List Nat := [192, 0, 2, 1]

/-- A two-byte message buffer. -/
def msgA2 : List Nat := [10, 20]

/-- An SOA record whose rdata is 2 bytes long at offset 0. -/
def rrS : RR := ⟨"s", 1, 6, 7, 0, 2⟩

/-- A 22-byte all-zero message buffer. -/
def msgS22 : List Nat := List.replicate 22 0

/-- A 5-byte all-zero message buffer. -/
def msgS5 : List Nat := List.replicate 5 0

/-- An OPT record with 6 bytes of rdata at offset 0. -/
def rrO : RR := ⟨"o", 512, 41, 0, 0, 6⟩

/-- OPT rdata holding one option with code 3 and declared length 99,
which exceeds the 2 remaining rdata bytes. -/
def msgO : List Nat := [0, 3, 0, 99, 1, 2]

/-- An OPT record with 8 bytes of rdata at offset 0. -/
def rrO8 : RR := ⟨"o", 512, 41, 0, 0, 8⟩

/-- OPT rdata holding one client-subnet option (code 8) whose declared
length 2 fits the remaining rdata but is below the 4-byte minimum. -/
def msgO8 : List Nat := [0, 8, 0, 2, 5, 6, 7, 8]

/-- OPT rdata holding one well-formed client-subnet option: family 1,
source mask 24, scope mask 0, address bytes 192.0.2.0. -/
def msgCS : List Nat := [0, 8, 0, 8, 0, 1, 24, 0, 192, 0, 2, 0]

/-- An OPT record owning the 12 bytes of `msgCS` as rdata. -/
def rrCS : RR := ⟨"o", 512, 41, 0, 0, 12⟩

/-- A parsed message with two question records, every accessor succeeding. -/
def pmW : ParsedMsg :=
  { id := 7, opcode := 0, rcode := 0, qr := true, aa := false, tc := false,
    rd := true, ra := false, z := false, ad := false, cd := false,
    counts := fun s => match s with | Sect.qd => 2 | _ => 0,
    recs := fun _ _ => some rrA }

/-- A parsed message with an empty question section. -/
def pmZ : ParsedMsg :=
  { pmW with counts := fun _ => 0 }

/-- A parsed message whose question accessor fails at index 0. -/
def pmN : ParsedMsg :=
  { pmW with counts := fun s => match s with | Sect.qd => 1 | _ => 0,
             recs := fun _ _ => none }

/- ------------------------------------------------------------------ -/
/- Theorems.                                                           -/
/- ------------------------------------------------------------------ -/

theorem fallbackTok_ne_empty (n : Nat) : fallbackTok n ≠ "" := by
  unfold fallbackTok
  intro h
  have := congrArg String.length h
  simp +decide [String.length_append] at this

theorem ntop4_ne_empty (bs : List Nat) : ntop4 bs ≠ "" := by
  unfold ntop4
  intro h
  have := congrArg String.length h
  simp +decide [String.length_append] at this

theorem soaFields_ne_empty (msg : List Nat) (off : Nat) : soaFields msg off ≠ "" := by
  unfold soaFields
  intro h
  have := congrArg String.length h
  simp +decide [String.length_append] at this

/-- C5: when the overall parse (`ns_initparse`) fails, `dump_dns` writes the
` <endline>dns ` header prefix and then only the system error description,
and returns: no section bodies are emitted. -/
theorem dump_dns_parse_failure (env : Env) (msg : List Nat) (endline : String) :
    dump_dns env msg none endline = [dnsFirstTok endline, env.errString] := rfl

/-- C8: a question-section record is formatted as exactly the single
`name,class_name,type_name` chunk, with no ttl and no rdata-derived suffix,
regardless of its type. -/
theorem dump_dns_rr_question (env : Env) (msg : List Nat) (rr : RR) :
    dump_dns_rr env msg rr Sect.qd = [rrHeadTok env rr] := by
  simp [dump_dns_rr]

/-- C9: `get_query_domain` returns the owner name of the first
question-section record, and the absence indicator (NULL) when the message
fails to parse, when the question section is empty, or when the question
accessor itself fails. -/
theorem get_query_domain_spec (pm pm0 pmF : ParsedMsg) (rr : RR)
    (h0 : pm0.counts Sect.qd = 0)
    (hF : pmF.recs Sect.qd 0 = none)
    (hn : pm.counts Sect.qd ≠ 0)
    (hr : pm.recs Sect.qd 0 = some rr) :
    get_query_domain none = none ∧
    get_query_domain (some pm0) = none ∧
    get_query_domain (some pmF) = none ∧
    get_query_domain (some pm) = some rr.name := by
  refine ⟨rfl, ?_, ?_, ?_⟩
  · simp [get_query_domain, hostname_from_question, h0]
  · by_cases hc : pmF.counts Sect.qd = 0 <;>
      simp [get_query_domain, hostname_from_question, hc, hF]
  · simp [get_query_domain, hostname_from_question, hn, hr]

/-- C9 witness: concrete parsed messages exercising all four cases. -/
theorem get_query_domain_spec_witness :
    get_query_domain none = none ∧
    get_query_domain (some pmZ) = none ∧
    get_query_domain (some pmN) = none ∧
    get_query_domain (some pmW) = some rrA.name :=
  get_query_domain_spec pmW pmZ pmN rrA rfl rfl (by decide) rfl

/-- C7 counterexample: an A record whose rdata length is 0 (shorter than 4
bytes) but with 4 message bytes available from the rdata offset renders the
dotted-quad of those bytes instead of degrading to the `[0]` fallback: the
bound the code checks is the message end, not the rdata length. -/
theorem dump_dns_rr_a_short_rdata_no_fallback :
    dump_dns_rr env0 msgA rrA Sect.an = ["a,C1,T1", ",0", ",", "192.0.2.1"] ∧
    fallbackTok rrA.rdlen ∉ dump_dns_rr env0 msgA rrA Sect.an := by
  constructor
  · rfl
  · decide

/-- C7 (amended): an A record in a non-question section renders the
dotted-decimal IPv4 text of the 4 bytes at its rdata offset whenever at
least 4 bytes remain between the rdata offset and the message end (in
particular whenever the rdata itself is at least 4 bytes long), and degrades
to the `[N]` fallback exactly when fewer than 4 bytes remain to the message
end — the check is against the message end, not the rdata length. -/
theorem dump_dns_rr_a_amended (env : Env) (msg msg2 : List Nat) (rr rr2 : RR)
    (sect : Sect) (hs : sect ≠ Sect.qd)
    (ht : rr.rtype = 1) (ht2 : rr2.rtype = 1)
    (hok : 4 ≤ msg.length - rr.rdoff)
    (hshort : msg2.length - rr2.rdoff < 4) :
    dump_dns_rr env msg rr sect =
      [rrHeadTok env rr, rrTtlTok rr, ",", ntop4 (sliceBytes msg rr.rdoff 4)] ∧
    dump_dns_rr env msg2 rr2 sect =
      [rrHeadTok env rr2, rrTtlTok rr2, ",", fallbackTok rr2.rdlen] := by
  constructor
  · simp [dump_dns_rr, hs, rrBody, ht, Nat.not_lt.mpr hok, ntop4_ne_empty]
  · simp [dump_dns_rr, hs, rrBody, ht2, hshort, fallbackTok_ne_empty]

/-- C7 witness: rdata `{192,0,2,1}` renders `192.0.2.1`; a 2-byte message
renders the `[2]` fallback. -/
theorem dump_dns_rr_a_amended_witness :
    (dump_dns_rr env0 msgA rrA4 Sect.an =
      [rrHeadTok env0 rrA4, rrTtlTok rrA4, ",", ntop4 (sliceBytes msgA rrA4.rdoff 4)] ∧
     dump_dns_rr env0 msgA2 rrA2 Sect.an =
      [rrHeadTok env0 rrA2, rrTtlTok rrA2, ",", fallbackTok rrA2.rdlen]) ∧
    ntop4 (sliceBytes msgA rrA4.rdoff 4) = "192.0.2.1" :=
  ⟨dump_dns_rr_a_amended env0 msgA msgA2 rrA4 rrA2 Sect.an (by decide)
      rfl rfl (by decide) (by decide),
   by decide⟩

/-- C3 counterexample: an SOA record whose rdata holds only its two
(one-byte) compressed names and zero further bytes — 20 fewer than the five
32-bit fields need — still has its five fields decoded (from bytes beyond
its rdata) because the code checks the distance to the message end, not the
rdata length: no fallback is produced. -/
theorem dump_dns_rr_soa_short_rdata_no_fallback :
    dump_dns_rr env1 msgS22 rrS Sect.an =
      ["s,C1,T6", ",7", ",", "q", ",", "q", ",", "0,0,0,0,0"] ∧
    fallbackTok rrS.rdlen ∉ dump_dns_rr env1 msgS22 rrS Sect.an := by
  constructor
  · rfl
  · decide

/-- C3 (amended): for an SOA record in a non-question section whose two
leading names decompress successfully (consuming `n1` and `n2` wire bytes),
the record renders `,mname,rname` followed by the five big-endian 32-bit
fields read from the bytes after the names when at least 20 bytes remain
before the message end, and degrades to the `[N]` fallback (keeping the
already-printed names) exactly when fewer than 20 bytes remain to the
message end — the bound is the message end, not the record's own rdata. -/
theorem dump_dns_rr_soa_amended (env : Env) (msg msg2 : List Nat) (rr rr2 : RR)
    (sect : Sect) (mname rname mname2 rname2 : String) (n1 n2 m1 m2 : Nat)
    (hs : sect ≠ Sect.qd) (ht : rr.rtype = 6) (ht2 : rr2.rtype = 6)
    (h1 : env.uncompress msg rr.rdoff = some (mname, n1))
    (h2 : env.uncompress msg (rr.rdoff + n1) = some (rname, n2))
    (h1b : env.uncompress msg2 rr2.rdoff = some (mname2, m1))
    (h2b : env.uncompress msg2 (rr2.rdoff + m1) = some (rname2, m2))
    (hok : 20 ≤ msg.length - (rr.rdoff + n1 + n2))
    (hshort : msg2.length - (rr2.rdoff + m1 + m2) < 20) :
    dump_dns_rr env msg rr sect =
      [rrHeadTok env rr, rrTtlTok rr, ",", mname, ",", rname, ",",
        soaFields msg (rr.rdoff + n1 + n2)] ∧
    dump_dns_rr env msg2 rr2 sect =
      [rrHeadTok env rr2, rrTtlTok rr2, ",", mname2, ",", rname2, ",",
        fallbackTok rr2.rdlen] := by
  constructor
  · simp [dump_dns_rr, hs, rrBody, ht, h1, h2, Nat.not_lt.mpr hok,
      soaFields_ne_empty]
  · simp [dump_dns_rr, hs, rrBody, ht2, h1b, h2b, hshort, fallbackTok_ne_empty]

/-- C3 witness: with a decompressor consuming one byte per name, a 22-byte
message decodes the five zero fields, while a 5-byte message falls back. -/
theorem dump_dns_rr_soa_amended_witness :
    dump_dns_rr env1 msgS22 rrS Sect.an =
      [rrHeadTok env1 rrS, rrTtlTok rrS, ",", "q", ",", "q", ",",
        soaFields msgS22 (rrS.rdoff + 1 + 1)] ∧
    dump_dns_rr env1 msgS5 rrS Sect.an =
      [rrHeadTok env1 rrS, rrTtlTok rrS, ",", "q", ",", "q", ",",
        fallbackTok rrS.rdlen] :=
  dump_dns_rr_soa_amended env1 msgS22 msgS5 rrS rrS Sect.an "q" "q" "q" "q"
    1 1 1 1 (by decide) rfl rfl rfl rfl rfl rfl (by decide) (by decide)

theorem opt_error_fallback (env : Env) (msg : List Nat) (rr : RR) (sect : Sect)
    (ht : rr.rtype = 41) (hs : sect ≠ Sect.qd)
    (he : (optWalk env msg rr.rdoff rr.rdlen).2.1 = true) :
    dump_dns_rr env msg rr sect =
      rrHeadTok env rr :: rrTtlTok rr :: optHdrTok rr ::
        ((optWalk env msg rr.rdoff rr.rdlen).1 ++ [",", fallbackTok rr.rdlen]) := by
  simp [dump_dns_rr, hs, rrBody, ht, he, fallbackTok_ne_empty]

/-- C1: when an option's declared length exceeds the option-list bytes
remaining in the OPT rdata, the walker aborts right after printing that
option's code/codelen chunk — no payload is decoded and no further options
are walked — and whenever the walk aborts, the whole OPT record's rendering
ends with the `[N]` fallback, `N` being the OPT record's total rdata
length. -/
theorem optWalk_overlong_option_fallback (env : Env) (msg : List Nat)
    (rr : RR) (sect : Sect) (ht : rr.rtype = 41) (hs : sect ≠ Sect.qd) :
    (∀ rd optlen, 4 ≤ optlen → optlen - 4 < get16 msg (rd + 2) →
      optWalk env msg rd optlen = ([codeTok msg rd], true, rd + 4)) ∧
    ((optWalk env msg rr.rdoff rr.rdlen).2.1 = true →
      dump_dns_rr env msg rr sect =
        rrHeadTok env rr :: rrTtlTok rr :: optHdrTok rr ::
          ((optWalk env msg rr.rdoff rr.rdlen).1 ++
            [",", fallbackTok rr.rdlen])) := by
  constructor
  · intro rd optlen h1 h2
    rw [optWalk]
    have hA : ¬ optlen < 4 := by omega
    simp [hA, h2]
  · exact opt_error_fallback env msg rr sect ht hs

/-- C1 witness: an OPT record with 6 rdata bytes whose single option
declares length 99. -/
theorem optWalk_overlong_option_fallback_witness :
    optWalk env0 msgO 0 6 = ([codeTok msgO 0], true, 4) ∧
    dump_dns_rr env0 msgO rrO Sect.an =
      rrHeadTok env0 rrO :: rrTtlTok rrO :: optHdrTok rrO ::
        ((optWalk env0 msgO rrO.rdoff rrO.rdlen).1 ++
          [",", fallbackTok rrO.rdlen]) := by
  have h := optWalk_overlong_option_fallback env0 msgO rrO Sect.an rfl (by decide)
  have h1 := h.1 0 6 (by decide) (by decide)
  refine ⟨by simpa using h1, h.2 ?_⟩
  show (optWalk env0 msgO 0 6).2.1 = true
  rw [h1]

/-- C10: a client-subnet option (code 8) whose declared length is below 4
makes the walker abort before the family word is read, even though the
declared length fits the remaining rdata; an aborted walk makes the whole
OPT record end with the `[N]` raw-length fallback. -/
theorem optWalk_cs_short_fallback (env : Env) (msg : List Nat)
    (rr : RR) (sect : Sect) (ht : rr.rtype = 41) (hs : sect ≠ Sect.qd) :
    (∀ rd optlen, 4 ≤ optlen → get16 msg rd = 8 →
      get16 msg (rd + 2) ≤ optlen - 4 → get16 msg (rd + 2) < 4 →
      optWalk env msg rd optlen = ([codeTok msg rd], true, rd + 4)) ∧
    ((optWalk env msg rr.rdoff rr.rdlen).2.1 = true →
      dump_dns_rr env msg rr sect =
        rrHeadTok env rr :: rrTtlTok rr :: optHdrTok rr ::
          ((optWalk env msg rr.rdoff rr.rdlen).1 ++
            [",", fallbackTok rr.rdlen])) := by
  constructor
  · intro rd optlen h1 hc hfit hlt
    rw [optWalk]
    have hA : ¬ optlen < 4 := by omega
    have hB : ¬ (optlen - 4 < get16 msg (rd + 2)) := by omega
    simp [hA, hB, hc, hlt]
  · exact opt_error_fallback env msg rr sect ht hs

/-- C10 witness: an OPT record whose code-8 option declares length 2 with 4
rdata bytes remaining. -/
theorem optWalk_cs_short_fallback_witness :
    optWalk env0 msgO8 0 8 = ([codeTok msgO8 0], true, 4) ∧
    dump_dns_rr env0 msgO8 rrO8 Sect.an =
      rrHeadTok env0 rrO8 :: rrTtlTok rrO8 :: optHdrTok rrO8 ::
        ((optWalk env0 msgO8 rrO8.rdoff rrO8.rdlen).1 ++
          [",", fallbackTok rrO8.rdlen]) := by
  have h := optWalk_cs_short_fallback env0 msgO8 rrO8 Sect.an rfl (by decide)
  have h1 := h.1 0 8 (by decide) (by decide) (by decide) (by decide)
  refine ⟨by simpa using h1, h.2 ?_⟩
  show (optWalk env0 msgO8 0 8).2.1 = true
  rw [h1]

theorem optWalk_final_le (env : Env) (msg : List Nat) :
    ∀ optlen rd, (optWalk env msg rd optlen).2.2 ≤ rd + optlen := by
  intro optlen
  induction optlen using Nat.strong_induction_on with
  | _ optlen ih =>
    intro rd
    by_cases h4 : optlen < 4
    · rw [optWalk]
      simp [h4]
    · rw [optWalk]
      by_cases hov : optlen - 4 < get16 msg (rd + 2)
      · simp [h4, hov]
        omega
      · by_cases hc : get16 msg rd = 8
        · by_cases hl : get16 msg (rd + 2) < 4
          · simp [h4, hov, hc, hl]
            omega
          · simp [h4, hov, hc, hl]
            refine le_trans (ih _ ?_ _) ?_
            · omega
            · omega
        · simp [h4, hov, hc]
          refine le_trans (ih _ ?_ _) ?_
          · omega
          · omega

/-- C2: after reading an option's code and declared length (4 header bytes),
the cursor the walk continues from is `rd + 4 + declared_length` no matter
which suboption decoder ran or how much it consumed, and the walker's final
cursor never moves past the end of the OPT rdata (`rd + optlen`), so the sum
of consumed option lengths cannot exceed the rdata's declared length. -/
theorem optWalk_cursor_advance (env : Env) (msg : List Nat) :
    (∀ rd optlen, 4 ≤ optlen → get16 msg (rd + 2) ≤ optlen - 4 →
      (get16 msg rd = 8 → 4 ≤ get16 msg (rd + 2)) →
      (optWalk env msg rd optlen).2.2 =
        (optWalk env msg (rd + 4 + get16 msg (rd + 2))
          (optlen - 4 - get16 msg (rd + 2))).2.2) ∧
    (∀ rd optlen, (optWalk env msg rd optlen).2.2 ≤ rd + optlen) := by
  constructor
  · intro rd optlen h1 h2 h3
    conv_lhs => rw [optWalk]
    have hA : ¬ optlen < 4 := by omega
    have hB : ¬ (optlen - 4 < get16 msg (rd + 2)) := by omega
    by_cases hc : get16 msg rd = 8
    · have hC : ¬ (get16 msg (rd + 2) < 4) := by
        have := h3 hc
        omega
      simp [hA, hB, hc, hC]
      have he : rd + 4 + 4 + (get16 msg (rd + 2) - 4) =
          rd + 4 + get16 msg (rd + 2) := by
        have := h3 hc
        omega
      rw [he]
    · simp [hA, hB, hc]
  · exact fun rd optlen => optWalk_final_le env msg optlen rd

/-- C2 witness: a well-formed client-subnet option of declared length 8 in
12 bytes of rdata. -/
theorem optWalk_cursor_advance_witness :
    (optWalk env0 msgCS 0 12).2.2 =
      (optWalk env0 msgCS (0 + 4 + get16 msgCS 2) (12 - 4 - get16 msgCS 2)).2.2 ∧
    (optWalk env0 msgCS 0 12).2.2 ≤ 0 + 12 := by
  have h := optWalk_cursor_advance env0 msgCS
  exact ⟨h.1 0 12 (by decide) (by decide) (fun _ => by decide), h.2 0 12⟩

/-- C4: a client-subnet option (code 8) of sufficient declared length prints
its code/codelen chunk, then (for an unknown family) the warning chunk, then
`edns0_client_subnet=<addr>/<source_mask> (scope <scope_mask>)`, where the
address is the family-appropriate text (family 1 IPv4, family 2 IPv6, any
other family the literal `<unknown>`) of the up-to-`declared_length-4`
address bytes zero-padded to 16, and the walk then continues. -/
theorem optWalk_client_subnet (env : Env) (msg : List Nat) (rd optlen : Nat)
    (h4 : 4 ≤ optlen) (hc : get16 msg rd = 8)
    (hfit : get16 msg (rd + 2) ≤ optlen - 4) (hl4 : 4 ≤ get16 msg (rd + 2)) :
    ∃ rest : List String, ∃ e : Bool, ∃ k : Nat,
      optWalk env msg rd optlen =
        (codeTok msg rd ::
          ((if get16 msg (rd + 4) = 1 ∨ get16 msg (rd + 4) = 2 then []
            else [warnTok (get16 msg (rd + 4))]) ++
            csTok
              (if get16 msg (rd + 4) = 1 then
                ntop4 (csAddr msg rd (get16 msg (rd + 2)))
              else if get16 msg (rd + 4) = 2 then
                env.ntop6 (csAddr msg rd (get16 msg (rd + 2)))
              else "<unknown>")
              ((get16 msg (rd + 6) &&& 0xff00) >>> 8)
              (get16 msg (rd + 6) &&& 0xff) ::
            rest), e, k) := by
  rw [optWalk]
  have hA : ¬ optlen < 4 := by omega
  have hB : ¬ (optlen - 4 < get16 msg (rd + 2)) := by omega
  have hC : ¬ (get16 msg (rd + 2) < 4) := by omega
  refine ⟨(optWalk env msg (rd + 4 + 4 + (get16 msg (rd + 2) - 4))
      (optlen - 4 - get16 msg (rd + 2))).1,
    (optWalk env msg (rd + 4 + 4 + (get16 msg (rd + 2) - 4))
      (optlen - 4 - get16 msg (rd + 2))).2.1,
    (optWalk env msg (rd + 4 + 4 + (get16 msg (rd + 2) - 4))
      (optlen - 4 - get16 msg (rd + 2))).2.2, ?_⟩
  simp [hA, hB, hc, hC]

/-- C4 witness: family 1, source mask 24, scope mask 0, address bytes
192.0.2.0 render `edns0_client_subnet=192.0.2.0/24 (scope 0)`. -/
theorem optWalk_client_subnet_witness :
    (∃ rest : List String, ∃ e : Bool, ∃ k : Nat,
      optWalk env0 msgCS 0 12 =
        (codeTok msgCS 0 :: csTok (ntop4 (csAddr msgCS 0 8)) 24 0 :: rest,
          e, k)) ∧
    csTok (ntop4 (csAddr msgCS 0 8)) 24 0 =
      "edns0_client_subnet=192.0.2.0/24 (scope 0)" := by
  constructor
  · obtain ⟨rest, e, k, hw⟩ :=
      optWalk_client_subnet env0 msgCS 0 12 (by decide) (by decide)
        (by decide) (by decide)
    refine ⟨rest, e, k, ?_⟩
    rw [hw]
    have e2 : get16 msgCS 2 = 8 := by decide
    have e4 : get16 msgCS 4 = 1 := by decide
    have e6 : get16 msgCS 6 = 6144 := by decide
    simp +decide [e2, e4, e6]
  · decide

theorem sectLoop_all_parsed (env : Env) (msg : List Nat) (pm : ParsedMsg)
    (sect : Sect) (endline : String) (f : Nat → RR) :
    ∀ (k rrnum : Nat) (sep : String),
      (∀ i, i < k → pm.recs sect (rrnum + i) = some (f (rrnum + i))) →
      sectLoop env msg pm sect endline k rrnum sep =
        (List.range k).flatMap (fun j =>
          (" " ++ (if j = 0 then sep else endline)) ::
            dump_dns_rr env msg (f (rrnum + j)) sect) := by
  intro k
  induction k with
  | zero =>
    intro rrnum sep _
    simp [sectLoop]
  | succ k ih =>
    intro rrnum sep h
    have h0 : pm.recs sect rrnum = some (f rrnum) := by
      have := h 0 (Nat.succ_pos k)
      simpa using this
    have hrest : ∀ i, i < k →
        pm.recs sect (rrnum + 1 + i) = some (f (rrnum + 1 + i)) := by
      intro i hi
      have := h (i + 1) (by omega)
      have harg : rrnum + (i + 1) = rrnum + 1 + i := by omega
      rw [harg] at this
      exact this
    rw [sectLoop, h0, ih (rrnum + 1) endline hrest]
    rw [List.range_succ_eq_map]
    have harg : ∀ j : Nat, rrnum + 1 + j = rrnum + (j + 1) := fun j => by omega
    simp [List.flatMap_map, harg]

/-- C6: an empty section prints the literal ` 0`; a section whose header
count is `N > 0` and all of whose accessor calls succeed prints the count
chunk followed by exactly `N` record entries in index order, each preceded
by a space and (from the second on) the caller's separator; and a parsed
message's four sections are dumped in the fixed order question, answer,
authority, additional. -/
theorem dump_dns_sections_spec (env : Env) (msg : List Nat)
    (pm pmE : ParsedMsg) (sect sectE : Sect) (endline : String)
    (N : Nat) (f : Nat → RR)
    (hE : pmE.counts sectE = 0)
    (hN : pm.counts sect = N) (hpos : 0 < N)
    (hall : ∀ i, i < N → pm.recs sect i = some (f i)) :
    dump_dns_sect env msg pmE sectE endline = [" 0"] ∧
    dump_dns_sect env msg pm sect endline =
      countTok endline N ::
        (List.range N).flatMap (fun j =>
          (" " ++ (if j = 0 then "" else endline)) ::
            dump_dns_rr env msg (f j) sect) ∧
    (∀ pm2, dump_dns env msg (some pm2) endline =
      dnsFirstTok endline :: dnsSummaryTok env pm2 ::
        (flagTokens pm2 ++
          dump_dns_sect env msg pm2 Sect.qd endline ++
          dump_dns_sect env msg pm2 Sect.an endline ++
          dump_dns_sect env msg pm2 Sect.ns endline ++
          dump_dns_sect env msg pm2 Sect.ar endline)) := by
  refine ⟨?_, ?_, fun pm2 => rfl⟩
  · simp [dump_dns_sect, hE]
  · rw [dump_dns_sect]
    have hz : ∀ i, i < N → pm.recs sect (0 + i) = some (f (0 + i)) := by
      intro i hi
      simpa using hall i hi
    simp only [hN, Nat.pos_iff_ne_zero.mp hpos, if_neg, ite_false,
      not_false_eq_true]
    rw [sectLoop_all_parsed env msg pm sect endline f N 0 "" hz]
    simp [countTok]

/-- C6 witness: a 2-record question section with an always-succeeding
accessor, an empty answer section, and the fixed section order. -/
theorem dump_dns_sections_spec_witness :
    dump_dns_sect env0 msgA pmZ Sect.an "x" = [" 0"] ∧
    dump_dns_sect env0 msgA pmW Sect.qd "x" =
      countTok "x" 2 ::
        (List.range 2).flatMap (fun j =>
          (" " ++ (if j = 0 then "" else "x")) ::
            dump_dns_rr env0 msgA rrA Sect.qd) ∧
    dump_dns env0 msgA (some pmW) "x" =
      dnsFirstTok "x" :: dnsSummaryTok env0 pmW ::
        (flagTokens pmW ++
          dump_dns_sect env0 msgA pmW Sect.qd "x" ++
          dump_dns_sect env0 msgA pmW Sect.an "x" ++
          dump_dns_sect env0 msgA pmW Sect.ns "x" ++
          dump_dns_sect env0 msgA pmW Sect.ar "x") := by
  have h := dump_dns_sections_spec env0 msgA pmW pmZ Sect.qd Sect.an "x" 2
    (fun _ => rrA) rfl rfl (by decide) (fun i _ => rfl)
  exact ⟨h.1, h.2.1, h.2.2 pmW⟩

end DumpDns
